import Mathlib

/-!
A shallow embedding of the cartaenlinea-backend multi-tenant catalog
routes (Express + PostgreSQL) and proofs about the spec's claims.

Modelling conventions:
- a database is a record of lists of rows; SQL `UPDATE ... WHERE` is a
  `List.map` guarded by the WHERE predicate, `DELETE` is a `List.filter`,
  `SELECT` is a `filter`/`find?`, `RETURNING` row counts are lengths;
- `req.user.commerceId` comes from the JWT payload and is NULL for users
  with no commerce, so it is an `Option Nat`; a SQL comparison
  `commerce_id = $n` with a NULL parameter matches no row;
- serial primary keys are modelled with a `nextId` counter in the state;
- JS truthiness on ids (`!category.id`) is `id = 0`; `x || 0` on an
  optional number is `Option.getD 0`; `x || null` on an optional string
  maps the empty string to NULL; `x !== false` on an optional boolean is
  `x ≠ some false`;
- each handler returns the HTTP status it responds with together with the
  database state after the request (and extra payload where a claim needs
  it); a thrown storage error is modelled, where a claim needs it, by a
  `fail` flag selecting the handler's catch branch.
-/

/-- Row of the `commerces` table (fields the claims do not touch are elided). -/
structure Commerce where
  id : Nat
  business_name : String
  subdomain : String
  business_category : Option String
deriving Repr, DecidableEq

/-- Row of the `users` table; `password` stores the bcrypt hash. -/
structure User where
  id : Nat
  email : String
  password : String
  role : String
  commerce_id : Option Nat
deriving Repr, DecidableEq

/-- Row of the `categories` table. -/
structure Category where
  id : Nat
  commerce_id : Nat
  name : String
  position : Int
deriving Repr, DecidableEq

/-- Row of the `products` table. -/
structure Product where
  id : Nat
  commerce_id : Nat
  category_id : Nat
  name : String
  description : String
  price : Int
  image_url : Option String
deriving Repr, DecidableEq

/-- Row of the `product_options` table. -/
structure ProductOption where
  id : Nat
  product_id : Nat
  name : String
  required : Bool
  multiple : Bool
  max_selections : Option Int
deriving Repr, DecidableEq

/-- Row of the `option_items` table. -/
structure OptionItem where
  id : Nat
  option_id : Nat
  name : String
  price_addition : Int
  available : Bool
  image_url : Option String
deriving Repr, DecidableEq

/-- Row of the `tags` table (colour and display fields elided). -/
structure Tag where
  id : Nat
  commerce_id : Nat
  name : String
  type : String
  visible : Bool
  priority : Int
deriving Repr, DecidableEq

/-- The relational state: one list per table, plus the serial-id counter. -/
structure DB where
  commerces : List Commerce
  users : List User
  categories : List Category
  products : List Product
  product_options : List ProductOption
  option_items : List OptionItem
  tags : List Tag
  product_tags : List (Nat × Nat)
  option_tags : List (Nat × Nat)
  item_tags : List (Nat × Nat)
  nextId : Nat
deriving Repr, DecidableEq

/-- Result of a mutation handler: HTTP status and resulting database. -/
structure MutResult where
  status : Nat
  db : DB
deriving Repr, DecidableEq

/-- SQL comparison `commerce_id = $n` against the caller's
`req.user.commerceId`: a NULL parameter matches no row. -/
def tenantEq (caller : Option Nat) (row : Nat) : Bool :=
  caller == some row

/-! ### routes/categories.js -/

/-- PUT /api/categories/:id (routes/categories.js, lines 136-181). -/
def updateCategory (db : DB) (role : String) (commerceId : Option Nat)
    (cid : Nat) (name : String) (position : Option Int) : MutResult :=
  if role == "SUPERUSER" then
    -- UPDATE categories SET name, position = COALESCE($2, position) WHERE id = $3
    if (db.categories.filter (fun c => c.id == cid)).isEmpty then
      ⟨404, db⟩
    else
      ⟨200, { db with categories := db.categories.map (fun c =>
        if c.id == cid then
          { c with name := name, position := position.getD c.position }
        else c) }⟩
  else
    -- UPDATE ... WHERE id = $3 AND commerce_id = $4
    if (db.categories.filter (fun c =>
        c.id == cid && tenantEq commerceId c.commerce_id)).isEmpty then
      ⟨404, db⟩
    else
      ⟨200, { db with categories := db.categories.map (fun c =>
        if c.id == cid && tenantEq commerceId c.commerce_id then
          { c with name := name, position := position.getD c.position }
        else c) }⟩

/-- DELETE /api/categories/:id (routes/categories.js, lines 187-216). -/
def deleteCategory (db : DB) (role : String) (commerceId : Option Nat)
    (cid : Nat) : MutResult :=
  if role == "SUPERUSER" then
    if (db.categories.filter (fun c => c.id == cid)).isEmpty then
      ⟨404, db⟩
    else
      ⟨200, { db with categories := db.categories.filter (fun c => !(c.id == cid)) }⟩
  else
    if (db.categories.filter (fun c =>
        c.id == cid && tenantEq commerceId c.commerce_id)).isEmpty then
      ⟨404, db⟩
    else
      ⟨200, { db with categories := db.categories.filter (fun c =>
        !(c.id == cid && tenantEq commerceId c.commerce_id)) }⟩

/-- One UPDATE of the reorder loop applied to the categories table
(routes/categories.js, lines 264-278). -/
def reorderStep (role : String) (commerceId : Option Nat)
    (cats : List Category) (pair : Nat × Int) : List Category :=
  cats.map (fun c =>
    if (if role == "SUPERUSER" then c.id == pair.1
        else c.id == pair.1 && tenantEq commerceId c.commerce_id) then
      { c with position := pair.2 }
    else c)

/-- POST /api/categories/reorder (routes/categories.js, lines 222-310).
The body is the list of `{id, position}` pairs. -/
def reorderCategories (db : DB) (role : String) (commerceId : Option Nat)
    (pairs : List (Nat × Int)) : MutResult :=
  -- per-element check: `!category.id` rejects a falsy (zero) id
  if pairs.any (fun p => p.1 == 0) then ⟨400, db⟩
  else if role != "SUPERUSER" then
    -- SELECT id FROM categories WHERE id = ANY($1) AND commerce_id = $2
    let categoryIds := pairs.map (fun p => p.1)
    let existing := db.categories.filter (fun c =>
      categoryIds.contains c.id && tenantEq commerceId c.commerce_id)
    if existing.length != categoryIds.length then ⟨403, db⟩
    else
      let cats := pairs.foldl (reorderStep role commerceId) db.categories
      ⟨200, { db with categories := cats }⟩
  else
    let cats := pairs.foldl (reorderStep role commerceId) db.categories
    ⟨200, { db with categories := cats }⟩

/-- Catch branch of GET /api/categories (routes/categories.js, lines 15-39):
on a storage error the handler answers 500 with an `{error}` object; the
body is `Sum.inl` for a JSON row array, `Sum.inr` for an error object. -/
def listCategories (fail : Bool) (db : DB) (role : String)
    (commerceId : Option Nat) : Nat × (List Category ⊕ String) :=
  if fail then
    ⟨500, Sum.inr "Error al obtener categorías"⟩
  else if role == "SUPERUSER" then
    ⟨200, Sum.inl (db.categories)⟩
  else
    match commerceId with
    | none => ⟨400, Sum.inr "No se encontró commerce_id para el usuario"⟩
    | some c => ⟨200, Sum.inl (db.categories.filter (fun x => x.commerce_id == c))⟩

/-! ### routes/products.js -/

/-- PUT /api/products/:id (routes/products.js, lines 95-129). There is no
SUPERUSER branch: the row filter always uses `req.user.commerceId`. -/
def updateProduct (db : DB) (commerceId : Option Nat) (pid : Nat)
    (name : String) (description : String) (price : Option Int)
    (category_id : Nat) : MutResult :=
  -- if (!name || price === undefined || !category_id) return 400
  if name == "" || price == none || category_id == 0 then ⟨400, db⟩
  else
    -- UPDATE products SET ... WHERE id = $5 AND commerce_id = $6 RETURNING *
    if (db.products.filter (fun p =>
        p.id == pid && tenantEq commerceId p.commerce_id)).isEmpty then
      ⟨404, db⟩
    else
      ⟨200, { db with products := db.products.map (fun p =>
        if p.id == pid && tenantEq commerceId p.commerce_id then
          { p with name := name, description := description,
                   price := price.getD 0, category_id := category_id }
        else p) }⟩

/-- DELETE /api/products/:id (routes/products.js, lines 132-158). -/
def deleteProduct (db : DB) (commerceId : Option Nat) (pid : Nat) : MutResult :=
  if (db.products.filter (fun p =>
      p.id == pid && tenantEq commerceId p.commerce_id)).isEmpty then
    ⟨404, db⟩
  else
    ⟨200, { db with products := db.products.filter (fun p =>
      !(p.id == pid && tenantEq commerceId p.commerce_id)) }⟩

/-- GET /api/products (routes/products.js, lines 46-67). The catch branch
answers `res.json([])`: status 200 with an empty JSON array, not a 500
error object. -/
def listProducts (fail : Bool) (db : DB) (commerceId : Option Nat) :
    Nat × (List Product ⊕ String) :=
  if fail then
    ⟨200, Sum.inl []⟩
  else
    ⟨200, Sum.inl (db.products.filter (fun p => tenantEq commerceId p.commerce_id))⟩

/-! ### routes/product_options.js -/

/-- Ownership chain check used by the option handlers: the option joined to
its product must satisfy `p.commerce_id = req.user.commerceId`. -/
def optionBelongs (db : DB) (commerceId : Option Nat) (oid : Nat) : Bool :=
  db.product_options.any (fun po =>
    po.id == oid && db.products.any (fun p =>
      p.id == po.product_id && tenantEq commerceId p.commerce_id))

/-- PUT /api/product-options/:id (routes/product_options.js, lines 38-69).
The stored `max_selections` is `multiple ? max_selections : null`. -/
def updateOptionById (db : DB) (commerceId : Option Nat) (oid : Nat)
    (name : String) (required multiple : Bool)
    (max_selections : Option Int) : MutResult :=
  if !optionBelongs db commerceId oid then ⟨404, db⟩
  else
    ⟨200, { db with product_options := db.product_options.map (fun po =>
      if po.id == oid then
        { po with name := name, required := required, multiple := multiple,
                  max_selections := if multiple then max_selections else none }
      else po) }⟩

/-- Request body entry of the `items` list of a product-option update:
`id` is absent for an item to insert. -/
structure ItemReq where
  id : Option Nat
  name : String
  price_addition : Option Int
  available : Option Bool
  image_url : Option String
deriving Repr, DecidableEq

/-- JS `item.image_url || null`: an absent or empty string becomes NULL. -/
def strOrNull (s : Option String) : Option String :=
  match s with
  | some v => if v == "" then none else some v
  | none => none

/-- Fields written for a request item: `price_addition || 0`,
`available !== false`, `image_url || null`. -/
def applyItemFields (item : ItemReq) (it : OptionItem) : OptionItem :=
  { it with name := item.name,
            price_addition := item.price_addition.getD 0,
            available := item.available != some false,
            image_url := strOrNull item.image_url }

/-- The freshly inserted row for a request item without an id. -/
def newItem (oid : Nat) (n : Nat) (item : ItemReq) : OptionItem :=
  ⟨n, oid, item.name, item.price_addition.getD 0,
   item.available != some false, strOrNull item.image_url⟩

/-- One iteration of the items loop of PUT /api/product-options/:optionId
(routes/product_options.js, lines 421-451): an entry with an id is an
UPDATE guarded by `id = $5 AND option_id = $6`, one without an id is an
INSERT drawing the next serial id. -/
def itemsStep (oid : Nat) (st : List OptionItem × Nat) (item : ItemReq) :
    List OptionItem × Nat :=
  match item.id with
  | some iid =>
      ⟨st.1.map (fun it =>
        if it.id == iid && it.option_id == oid then applyItemFields item it
        else it), st.2⟩
  | none => ⟨st.1 ++ [newItem oid st.2 item], st.2 + 1⟩

/-- All id-carrying updates of the request applied, in order, to one stored
item row (used to characterise the loop of the full option update). -/
def applyUpds (oid : Nat) (l : List ItemReq) (it : OptionItem) : OptionItem :=
  l.foldl (fun acc item =>
    match item.id with
    | some iid =>
        if acc.id == iid && acc.option_id == oid then applyItemFields item acc
        else acc
    | none => acc) it

/-- The rows inserted for the request items without an id, with the serial
ids they draw starting at `n`. -/
def mkInserts (oid : Nat) (l : List ItemReq) (n : Nat) : List OptionItem :=
  match l with
  | [] => []
  | item :: rest =>
    match item.id with
    | some _ => mkInserts oid rest n
    | none => newItem oid n item :: mkInserts oid rest (n + 1)

/-- PUT /api/product-options/:optionId (routes/product_options.js, lines
372-483): verify ownership, update the option row, then — only when the
request carries a non-empty `items` list (`if (items && items.length > 0)`)
— reconcile the stored items by id. All inside one transaction. -/
def updateOptionFull (db : DB) (commerceId : Option Nat) (oid : Nat)
    (name : String) (required multiple : Bool) (max_selections : Option Int)
    (items : Option (List ItemReq)) : MutResult :=
  if !optionBelongs db commerceId oid then ⟨404, db⟩
  else
    let db1 := { db with product_options := db.product_options.map (fun po =>
      if po.id == oid then
        { po with name := name, required := required, multiple := multiple,
                  max_selections := if multiple then max_selections else none }
      else po) }
    match items with
    | some l =>
      if l.length > 0 then
        let currentItemIds := (db1.option_items.filter
          (fun it => it.option_id == oid)).map (fun it => it.id)
        let requestItemIds := l.filterMap (fun item => item.id)
        let itemsToDelete := currentItemIds.filter
          (fun i => !requestItemIds.contains i)
        -- DELETE FROM option_items WHERE id = ANY($1)
        let kept := db1.option_items.filter
          (fun it => !itemsToDelete.contains it.id)
        let res := l.foldl (itemsStep oid) (kept, db1.nextId)
        ⟨200, { db1 with option_items := res.1, nextId := res.2 }⟩
      else ⟨200, db1⟩
    | none => ⟨200, db1⟩

/-- POST /api/product-options (routes/product_options.js, lines 221-313):
insert the option (with `multiple ? max_selections : null`) and its items
inside one transaction. -/
def createOption (db : DB) (commerceId : Option Nat) (product_id : Nat)
    (name : String) (required multiple : Bool) (max_selections : Option Int)
    (items : List ItemReq) : MutResult :=
  if !(db.products.any (fun p =>
      p.id == product_id && tenantEq commerceId p.commerce_id)) then
    ⟨404, db⟩
  else
    let optionId := db.nextId
    let inserted : ProductOption :=
      ⟨optionId, product_id, name, required, multiple,
       if multiple then max_selections else none⟩
    let withItems := items.foldl
      (fun (st : List OptionItem × Nat) item =>
        ⟨st.1 ++ [⟨st.2, optionId, item.name, item.price_addition.getD 0,
                  item.available != some false, none⟩], st.2 + 1⟩)
      (db.option_items, db.nextId + 1)
    ⟨201, { db with product_options := db.product_options ++ [inserted],
                    option_items := withItems.1,
                    nextId := withItems.2 }⟩

/-! ### routes/tags.js -/

/-- POST /api/tags/assign-product/:productId/:tagId (routes/tags.js): verify
product and tag ownership, require tag type `product`, then insert the
assignment unless it already exists (in which case answer 200 and leave the
table unchanged). -/
def assignProductTag (db : DB) (commerceId : Option Nat)
    (productId tagId : Nat) : MutResult :=
  if !(db.products.any (fun p =>
      p.id == productId && tenantEq commerceId p.commerce_id)) then
    ⟨404, db⟩
  else
    match db.tags.find? (fun t => t.id == tagId && tenantEq commerceId t.commerce_id) with
    | none => ⟨404, db⟩
    | some t =>
      if t.type != "product" then ⟨400, db⟩
      else if db.product_tags.any (fun pt => pt.1 == productId && pt.2 == tagId) then
        ⟨200, db⟩
      else
        ⟨201, { db with product_tags := db.product_tags ++ [(productId, tagId)] }⟩

/-! ### routes/auth.js -/

/-- Result of POST /api/auth/login: the status and, for a failure, the
`error` field of the JSON body. -/
structure LoginResult where
  status : Nat
  error : Option String
deriving Repr, DecidableEq

/-- POST /api/auth/login (routes/auth.js, lines 114-154). `compare` is the
external `bcrypt.compare` collaborator. Unknown email and wrong password
take distinct branches that build an identical response. -/
def login (compare : String → String → Bool) (db : DB)
    (email password : String) : LoginResult :=
  match db.users.find? (fun u => u.email == email) with
  | none => ⟨400, some "Credenciales inválidas"⟩
  | some user =>
    if !compare password user.password then
      ⟨400, some "Credenciales inválidas"⟩
    else
      ⟨200, none⟩

/-- POST /api/auth/register (routes/auth.js, lines 55-107). `callerRole` is
the role decoded from the bearer token, `none` when there is no (valid)
token; `hash` is the external bcrypt hashing collaborator. When the caller
is not a SUPERUSER the inserted row is forced to role OWNER with
`commerce_id = NULL`. -/
def registerUser (hash : String → String) (db : DB)
    (callerRole : Option String) (email password : String)
    (role : Option String) (commerce_id : Option Nat) : MutResult :=
  if db.users.any (fun u => u.email == email) then ⟨400, db⟩
  else
    let superuser := callerRole == some "SUPERUSER"
    if !superuser && (match role with
        | some r => r.toUpper != "OWNER"
        | none => false) then
      ⟨403, db⟩
    else
      let finalRole := if superuser then role.getD "OWNER" else "OWNER"
      let finalCommerceId := if superuser then commerce_id else none
      let row : User := ⟨db.nextId, email, hash password, finalRole, finalCommerceId⟩
      ⟨201, { db with users := db.users ++ [row], nextId := db.nextId + 1 }⟩

/-! ### routes/commerces.js -/

/-- Characters excluded by `[^\s@]` of the email regular expression. -/
def emailCharOk (c : Char) : Bool :=
  c != '@' && c != ' ' && c != '\t' && c != '\n' && c != '\r'

/-- The test `/^[^\s@]+@[^\s@]+\.[^\s@]+$/` of routes/commerces.js: exactly
one `@` with a non-empty local part of allowed characters, and a domain
part of allowed characters containing a dot that is neither first nor
last. -/
def emailRegexTest (s : String) : Bool :=
  let cs := s.toList
  let l := cs.takeWhile (fun c => c != '@')
  let r := (cs.dropWhile (fun c => c != '@')).drop 1
  cs.count '@' == 1 && !l.isEmpty && l.all emailCharOk && r.all emailCharOk &&
  r.contains '.' && r.head? != some '.' && r.getLast? != some '.'

/-- POST /api/commerces (routes/commerces.js, lines 62-196): validate,
check subdomain and email uniqueness, then insert the commerce and its
OWNER user inside one transaction. -/
def createCommerce (hash : String → String) (db : DB)
    (business_name subdomain owner_email owner_password : String)
    (business_category : Option String) : MutResult :=
  if business_name == "" || subdomain == "" || owner_email == "" ||
     owner_password == "" then ⟨400, db⟩
  else if !emailRegexTest owner_email then ⟨400, db⟩
  else if owner_password.length < 6 then ⟨400, db⟩
  else if db.commerces.any (fun c => c.subdomain == subdomain) then ⟨400, db⟩
  else if db.users.any (fun u => u.email == owner_email) then ⟨400, db⟩
  else
    let commerceId := db.nextId
    let userId := db.nextId + 1
    ⟨201, { db with
      commerces := db.commerces ++
        [⟨commerceId, business_name, subdomain, business_category⟩],
      users := db.users ++
        [⟨userId, owner_email, hash owner_password, "OWNER", some commerceId⟩],
      nextId := db.nextId + 2 }⟩

/-! ### Public menu composition (routes/public.js, full variant) -/

/-- One product of the public menu document; the nested tag and option
aggregation is elided (no claim touches it). -/
structure MenuProduct where
  id : Nat
  name : String
  image_url : Option String
  description : String
  price : Int
deriving Repr, DecidableEq

/-- One category row of the public menu document. `products` is the result
of `json_agg(...) FILTER (WHERE p.id IS NOT NULL)` followed by the JS
`category.products || []` mapping: `none` is JSON null. -/
structure MenuCategory where
  id : Nat
  name : String
  position : Int
  products : Option (List MenuProduct)
deriving Repr, DecidableEq

/-- Result of GET /api/public/:subdomain. -/
structure MenuResult where
  status : Nat
  commerce : Option Commerce
  categories : List MenuCategory
deriving Repr, DecidableEq

/-- ORDER BY c.position, c.id of the public categories query. -/
def catOrder (a b : Category) : Bool :=
  a.position < b.position || (a.position == b.position && a.id ≤ b.id)

/-- The `json_agg` product list of one category: the products joined on
`c.id = p.category_id`, NULL (`none`) when the LEFT JOIN found none. -/
def categoryProducts (db : DB) (c : Category) : Option (List MenuProduct) :=
  match db.products.filter (fun p => p.category_id == c.id) with
  | [] => none
  | ps => some (ps.map (fun p => ⟨p.id, p.name, p.image_url, p.description, p.price⟩))

/-- GET /api/public/:subdomain (routes/public.js, full variant): resolve
the commerce by subdomain (404 when absent), fetch its categories ordered
by `(position, id)`, aggregate each category's products, and replace a
NULL aggregate by the empty array (`category.products || []`). -/
def composeMenu (db : DB) (subdomain : String) : MenuResult :=
  match db.commerces.find? (fun cm => cm.subdomain == subdomain) with
  | none => ⟨404, none, []⟩
  | some commerce =>
    let rows := (db.categories.filter
      (fun c => c.commerce_id == commerce.id)).mergeSort catOrder
    let categories := rows.map (fun c =>
      ⟨c.id, c.name, c.position, some ((categoryProducts db c).getD [])⟩)
    ⟨200, some commerce, categories⟩

/-! ### Concrete fixtures used by witnesses and counterexamples -/

/-- A bcrypt stand-in for concrete runs: hashing appends a marker. -/
def hash0 : String → String := fun s => s ++ "#"

/-- The matching bcrypt.compare stand-in. -/
def cmp0 : String → String → Bool := fun p h => (p ++ "#") == h

/-- An empty database. -/
def dbEmpty : DB := ⟨[], [], [], [], [], [], [], [], [], [], 1⟩

/-- One stored user for the login scenarios. -/
def dbAuth : DB :=
  { dbEmpty with users := [⟨1, "a@acme.test", "secret1#", "OWNER", some 1⟩], nextId := 2 }

/-- Two tenants: category 1 and the caller belong to commerce 1, category 2
and product 7 belong to commerce 2. -/
def dbTwoTenants : DB :=
  { dbEmpty with
      categories := [⟨1, 1, "A", 0⟩, ⟨2, 2, "B", 1⟩],
      products := [⟨7, 2, 3, "P", "", 5, none⟩],
      nextId := 10 }

/-- A single category owned by commerce 1, for the duplicate-id reorder run. -/
def dbOneCat : DB :=
  { dbEmpty with categories := [⟨1, 1, "A", 0⟩], nextId := 5 }

/-- One product and one product-type tag of commerce 1. -/
def dbAssign : DB :=
  { dbEmpty with
      products := [⟨1, 1, 1, "P", "", 5, none⟩],
      tags := [⟨2, 1, "t", "product", true, 0⟩],
      nextId := 3 }

/-- A commerce with slug `acme`, three categories (two tie on position 1)
and one product, for the public menu runs. -/
def dbMenu : DB :=
  { dbEmpty with
      commerces := [⟨1, "Acme", "acme", none⟩],
      categories := [⟨3, 1, "B", 1⟩, ⟨2, 1, "A", 1⟩, ⟨4, 1, "C", 0⟩],
      products := [⟨8, 1, 2, "P", "", 5, none⟩],
      nextId := 9 }

/-- Request items for the reconciliation run against `dbOption` below:
update stored item 20 in place, silently omit stored item 21 (to be
deleted), and insert one new item without an id. -/
def c4req : List ItemReq :=
  [⟨some 20, "upd", some 3, none, none⟩, ⟨none, "new", none, none, none⟩]

/-- One option (id 10) of product 5 (commerce 1) with two stored items. -/
def dbOption : DB :=
  { dbEmpty with
      products := [⟨5, 1, 1, "P", "", 5, none⟩],
      product_options := [⟨10, 5, "Opt", false, true, some 2⟩],
      option_items := [⟨20, 10, "old", 0, true, none⟩, ⟨21, 10, "gone", 1, true, none⟩],
      nextId := 30 }

/-! ### Claim C9 — login failure responses -/

/-- Claim C9, counterexample: with the stored user `a@acme.test`, a login
with the right email and a wrong password is answered with status 400 and
body error `Credenciales inválidas`, not with status 401 as claimed. -/
theorem c9_counterexample :
    login cmp0 dbAuth "a@acme.test" "wrong" = ⟨400, some "Credenciales inválidas"⟩ ∧
    (login cmp0 dbAuth "a@acme.test" "wrong").status ≠ 401 := by
  constructor
  · rfl
  · decide

/-- Claim C9 (amended): a login with a known email and a wrong password is
answered with status 400 and body `error = "Credenciales inválidas"`, and
that response is identical — same status, same body — to the one produced
for an unknown email. -/
theorem c9_amended (compare : String → String → Bool) (db : DB)
    (email password : String) (user : User)
    (h1 : db.users.find? (fun u => u.email == email) = some user)
    (h2 : compare password user.password = false)
    (email2 password2 : String)
    (h3 : ∀ u ∈ db.users, u.email ≠ email2) :
    login compare db email password = ⟨400, some "Credenciales inválidas"⟩ ∧
    login compare db email2 password2 = ⟨400, some "Credenciales inválidas"⟩ := by
  constructor
  · simp [login, h1, h2]
  · have hfind : db.users.find? (fun u => u.email == email2) = none := by
      apply List.find?_eq_none.mpr
      intro u hu
      simp [h3 u hu]
    simp [login, hfind]

/-- Claim C9, witness for the amended theorem at the stored fixture. -/
theorem c9_witness :
    dbAuth.users.find? (fun u => u.email == "a@acme.test") =
      some ⟨1, "a@acme.test", "secret1#", "OWNER", some 1⟩ ∧
    cmp0 "wrong" "secret1#" = false ∧
    (∀ u ∈ dbAuth.users, u.email ≠ "nobody@acme.test") ∧
    login cmp0 dbAuth "a@acme.test" "wrong" = ⟨400, some "Credenciales inválidas"⟩ ∧
    login cmp0 dbAuth "nobody@acme.test" "x" = ⟨400, some "Credenciales inválidas"⟩ := by
  refine ⟨by decide, by decide, by decide, ?_⟩
  exact c9_amended cmp0 dbAuth "a@acme.test" "wrong"
    ⟨1, "a@acme.test", "secret1#", "OWNER", some 1⟩ (by decide) (by decide)
    "nobody@acme.test" "x" (by decide)

/-! ### Claim C10 — unhandled storage failures -/

/-- Claim C10, counterexample: on a storage failure the products list
endpoint answers status 200 with an empty JSON array, not a 500 with an
`{error}` object. -/
theorem c10_counterexample :
    listProducts true dbTwoTenants (some 1) = ⟨200, Sum.inl []⟩ ∧
    (listProducts true dbTwoTenants (some 1)).1 ≠ 500 := by
  constructor
  · rfl
  · decide

/-- Claim C10 (amended): on an unhandled storage failure the categories
list endpoint answers 500 with an `{error}` body, but the products list
endpoint answers 200 with an empty JSON array instead. -/
theorem c10_amended (db : DB) (role : String) (commerceId : Option Nat) :
    listCategories true db role commerceId = ⟨500, Sum.inr "Error al obtener categorías"⟩ ∧
    listProducts true db commerceId = ⟨200, Sum.inl []⟩ := by
  constructor
  · rfl
  · rfl

/-! ### Claim C8 — OWNER principals and tenant references -/

/-- Claim C8, counterexample: a registration with no bearer token creates a
Principal with role OWNER and a null tenant reference, so the invariant
"a null tenant reference occurs only for SUPERUSER principals" is not
preserved by user registration. -/
theorem c8_counterexample :
    (registerUser hash0 dbEmpty none "a@b.c" "pw" none none).status = 201 ∧
    ∃ u ∈ (registerUser hash0 dbEmpty none "a@b.c" "pw" none none).db.users,
      u.role = "OWNER" ∧ u.commerce_id = none := by
  refine ⟨by decide, ⟨1, "a@b.c", "pw#", "OWNER", none⟩, by decide, by decide, by decide⟩

/-- Claim C8 (amended): tenant creation does preserve the invariant — a
successful POST /api/commerces stores an OWNER principal whose tenant
reference is the id of the commerce created in the same transaction, and
that commerce exists; but user registration by a caller who is not a
SUPERUSER stores an OWNER principal with a null tenant reference. -/
theorem c8_amended (hash : String → String) (db : DB)
    (bn sd em pw : String) (bc : Option String)
    (h : (createCommerce hash db bn sd em pw bc).status = 201)
    (db2 : DB) (callerRole : Option String) (email password : String)
    (hns : callerRole ≠ some "SUPERUSER")
    (hmail : ∀ u ∈ db2.users, u.email ≠ email) :
    ((∃ u ∈ (createCommerce hash db bn sd em pw bc).db.users,
        u.role = "OWNER" ∧ u.commerce_id = some db.nextId) ∧
     (∃ cm ∈ (createCommerce hash db bn sd em pw bc).db.commerces,
        cm.id = db.nextId)) ∧
    ∃ u ∈ (registerUser hash db2 callerRole email password none none).db.users,
      u.role = "OWNER" ∧ u.commerce_id = none := by
  constructor
  · unfold createCommerce at h ⊢
    by_cases h1 : (bn == "" || sd == "" || em == "" || pw == "") = true
    · simp [h1] at h
    · by_cases h2 : emailRegexTest em = true
      · by_cases h3 : pw.length < 6
        · simp [h1, h2, h3] at h
        · by_cases h4 : db.commerces.any (fun c => c.subdomain == sd) = true
          · simp [h1, h2, h3, h4] at h
          · by_cases h5 : db.users.any (fun u => u.email == em) = true
            · simp [h1, h2, h3, h4, h5] at h
            · simp only [if_neg h1, h2, Bool.not_true, Bool.false_eq_true, if_false,
                         if_neg h3, if_neg h4, if_neg h5]
              refine ⟨⟨⟨db.nextId + 1, em, hash pw, "OWNER", some db.nextId⟩, ?_, rfl, rfl⟩,
                      ⟨⟨db.nextId, bn, sd, bc⟩, ?_, rfl⟩⟩ <;> simp
      · simp [h1, h2] at h
  · unfold registerUser
    have hany : db2.users.any (fun u => u.email == email) = false := by
      simp only [List.any_eq_false]
      intro u hu
      simp [hmail u hu]
    have hsup : (callerRole == some "SUPERUSER") = false := by
      simpa using hns
    simp only [hany, hsup]
    refine ⟨⟨db2.nextId, email, hash password, "OWNER", none⟩, ?_, rfl, rfl⟩
    simp

/-- Claim C8, witness: a concrete tenant creation and a concrete anonymous
registration instantiating the amended theorem. -/
theorem c8_witness :
    (createCommerce hash0 dbEmpty "Acme" "acme" "a@acme.test" "secret1" none).status = 201 ∧
    (none : Option String) ≠ some "SUPERUSER" ∧
    (∀ u ∈ dbEmpty.users, u.email ≠ "x@y.z") ∧
    (((∃ u ∈ (createCommerce hash0 dbEmpty "Acme" "acme" "a@acme.test" "secret1" none).db.users,
        u.role = "OWNER" ∧ u.commerce_id = some dbEmpty.nextId) ∧
      (∃ cm ∈ (createCommerce hash0 dbEmpty "Acme" "acme" "a@acme.test" "secret1" none).db.commerces,
        cm.id = dbEmpty.nextId)) ∧
     ∃ u ∈ (registerUser hash0 dbEmpty none "x@y.z" "pw" none none).db.users,
       u.role = "OWNER" ∧ u.commerce_id = none) := by
  refine ⟨by decide, by decide, by decide, ?_⟩
  exact c8_amended hash0 dbEmpty "Acme" "acme" "a@acme.test" "secret1" none (by decide)
    dbEmpty none "x@y.z" "pw" (by decide) (by decide)

/-! ### Claim C6 — max_selections forced to null when multiple is false -/

/-- Claim C6: on each ProductOption write path (simple update, full update,
create), when the `multiple` flag being written is false the stored
`max_selections` is null regardless of the value the caller supplied. -/
theorem c6_max_selections_null :
    (∀ (db : DB) (cid : Option Nat) (oid : Nat) (name : String) (req : Bool) (ms : Option Int),
      (updateOptionById db cid oid name req false ms).status = 200 →
      ∀ po ∈ (updateOptionById db cid oid name req false ms).db.product_options,
        po.id = oid → po.max_selections = none) ∧
    (∀ (db : DB) (cid : Option Nat) (oid : Nat) (name : String) (req : Bool) (ms : Option Int)
       (items : Option (List ItemReq)),
      (updateOptionFull db cid oid name req false ms items).status = 200 →
      ∀ po ∈ (updateOptionFull db cid oid name req false ms items).db.product_options,
        po.id = oid → po.max_selections = none) ∧
    (∀ (db : DB) (cid : Option Nat) (pid : Nat) (name : String) (req : Bool) (ms : Option Int)
       (items : List ItemReq),
      (createOption db cid pid name req false ms items).status = 201 →
      ∃ po ∈ (createOption db cid pid name req false ms items).db.product_options,
        po.id = db.nextId ∧ po.max_selections = none) := by
  refine ⟨?_, ?_, ?_⟩
  · intro db cid oid name req ms h po hpo hid
    by_cases hb : optionBelongs db cid oid
    · simp only [updateOptionById, hb, Bool.not_true, Bool.false_eq_true, if_false] at hpo
      simp only [List.mem_map] at hpo
      obtain ⟨x, hx, rfl⟩ := hpo
      by_cases hxe : (x.id == oid) = true
      · simp [hxe]
      · simp only [hxe, Bool.false_eq_true, if_false] at hid
        exact absurd hid (by simpa using hxe)
    · simp [updateOptionById, hb] at h
  · intro db cid oid name req ms items h po hpo hid
    by_cases hb : optionBelongs db cid oid
    · have hopts : (updateOptionFull db cid oid name req false ms items).db.product_options =
        db.product_options.map (fun x =>
          if x.id == oid then
            { x with name := name, required := req, multiple := false,
                     max_selections := if false then ms else none }
          else x) := by
        simp only [updateOptionFull, hb, Bool.not_true, Bool.false_eq_true, if_false]
        cases items with
        | none => rfl
        | some l =>
          by_cases hl : l.length > 0
          · simp only [if_pos hl]
          · simp only [if_neg hl]
      rw [hopts] at hpo
      simp only [List.mem_map] at hpo
      obtain ⟨x, hx, rfl⟩ := hpo
      by_cases hxe : (x.id == oid) = true
      · simp [hxe]
      · simp only [hxe, Bool.false_eq_true, if_false] at hid
        exact absurd hid (by simpa using hxe)
    · simp [updateOptionFull, hb] at h
  · intro db cid pid name req ms items h
    by_cases hp : (db.products.any (fun p => p.id == pid && tenantEq cid p.commerce_id)) = true
    · refine ⟨⟨db.nextId, pid, name, req, false, if false then ms else none⟩, ?_, rfl, by simp⟩
      simp only [createOption, hp, Bool.not_true, Bool.false_eq_true, if_false]
      simp
    · simp [createOption, hp] at h

/-- Claim C6, witness: writing the option with `multiple=false` while the
caller supplies `max_selections=7` stores a null `max_selections`. -/
theorem c6_witness :
    (updateOptionById dbOption (some 1) 10 "Opt" false false (some 7)).status = 200 ∧
    (∀ po ∈ (updateOptionById dbOption (some 1) 10 "Opt" false false (some 7)).db.product_options,
      po.id = 10 → po.max_selections = none) := by
  refine ⟨by decide, ?_⟩
  exact c6_max_selections_null.1 dbOption (some 1) 10 "Opt" false (some 7) (by decide)

/-! ### Claim C7 — tag assignment idempotence -/

/-- Claim C7: when a tag assignment to a product succeeds (201 on insert or
200 when it already existed), repeating the same assignment reports
success with status 200 and leaves the database unchanged — no duplicate
assignment row is created. -/
theorem c7_assign_idempotent (db : DB) (cid : Option Nat) (pid tid : Nat)
    (h : (assignProductTag db cid pid tid).status = 200 ∨
         (assignProductTag db cid pid tid).status = 201) :
    (assignProductTag (assignProductTag db cid pid tid).db cid pid tid).status = 200 ∧
    (assignProductTag (assignProductTag db cid pid tid).db cid pid tid).db =
      (assignProductTag db cid pid tid).db := by
  by_cases hp : (db.products.any (fun p => p.id == pid && tenantEq cid p.commerce_id)) = true
  · cases ht : db.tags.find? (fun t => t.id == tid && tenantEq cid t.commerce_id) with
    | none => simp [assignProductTag, hp, ht] at h
    | some t =>
      by_cases hty : (t.type != "product") = true
      · simp [assignProductTag, hp, ht, hty] at h
      · by_cases hex : (db.product_tags.any (fun pt => pt.1 == pid && pt.2 == tid)) = true
        · simp [assignProductTag, hp, ht, hty, hex]
        · have hres : assignProductTag db cid pid tid =
              ⟨201, { db with product_tags := db.product_tags ++ [(pid, tid)] }⟩ := by
            simp [assignProductTag, hp, ht, hty, hex]
          rw [hres]
          simp [assignProductTag, hp, ht, hty, List.any_append]
  · simp [assignProductTag, hp] at h

/-- Claim C7, witness: assigning tag 2 to product 1 inserts (201); the
repeated call answers 200 and does not change the assignment table. -/
theorem c7_witness :
    ((assignProductTag dbAssign (some 1) 1 2).status = 200 ∨
     (assignProductTag dbAssign (some 1) 1 2).status = 201) ∧
    ((assignProductTag (assignProductTag dbAssign (some 1) 1 2).db (some 1) 1 2).status = 200 ∧
     (assignProductTag (assignProductTag dbAssign (some 1) 1 2).db (some 1) 1 2).db =
       (assignProductTag dbAssign (some 1) 1 2).db) := by
  refine ⟨Or.inr (by decide), ?_⟩
  exact c7_assign_idempotent dbAssign (some 1) 1 2 (Or.inr (by decide))

/-! ### Helper lemmas about the reorder batch ownership check -/

/-- When some requested id has no category row of the caller's tenant, the
batched ownership SELECT returns fewer rows than the batch has ids. -/
theorem reorder_check_short (db : DB) (c1 : Nat) (ids : List Nat)
    (hnd : (db.categories.map Category.id).Nodup)
    (j : Nat) (hj : j ∈ ids)
    (hnone : ∀ x ∈ db.categories, x.id = j → x.commerce_id ≠ c1) :
    (db.categories.filter (fun c =>
      ids.contains c.id && tenantEq (some c1) c.commerce_id)).length ≠ ids.length := by
  set E := db.categories.filter (fun c =>
    ids.contains c.id && tenantEq (some c1) c.commerce_id) with hE
  have hsub : E.Sublist db.categories := List.filter_sublist _
  have hndE : (E.map Category.id).Nodup := hnd.sublist (hsub.map _)
  have hsubset : (E.map Category.id) ⊆ ids.erase j := by
    intro i hi
    obtain ⟨x, hxE, rfl⟩ := List.mem_map.mp hi
    have hpred := List.of_mem_filter hxE
    have hxdb := List.mem_of_mem_filter hxE
    simp only [Bool.and_eq_true, tenantEq, beq_iff_eq, Option.some.injEq] at hpred
    obtain ⟨hin, hten⟩ := hpred
    have hne : x.id ≠ j := fun he => hnone x hxdb he hten.symm
    exact (List.mem_erase_of_ne hne).mpr (List.mem_of_elem_eq_true hin)
  have hle := (List.subperm_of_subset hndE hsubset).length_le
  have hjlen : (ids.erase j).length = ids.length - 1 := List.length_erase_of_mem hj
  have hpos : 0 < ids.length := List.length_pos.mpr (List.ne_nil_of_mem hj)
  have hEM : (E.map Category.id).length = E.length := List.length_map E Category.id
  omega

/-- When every requested id has a category row of the caller's tenant and
both the table's ids and the batch ids are duplicate-free, the batched
ownership SELECT returns exactly one row per batch id. -/
theorem reorder_check_full (db : DB) (c1 : Nat) (ids : List Nat)
    (hnd : (db.categories.map Category.id).Nodup)
    (hids : ids.Nodup)
    (hall : ∀ i ∈ ids, ∃ x ∈ db.categories, x.id = i ∧ x.commerce_id = c1) :
    (db.categories.filter (fun c =>
      ids.contains c.id && tenantEq (some c1) c.commerce_id)).length = ids.length := by
  set E := db.categories.filter (fun c =>
    ids.contains c.id && tenantEq (some c1) c.commerce_id) with hE
  have hsub : E.Sublist db.categories := List.filter_sublist _
  have hndE : (E.map Category.id).Nodup := hnd.sublist (hsub.map _)
  have h1 : (E.map Category.id) ⊆ ids := by
    intro i hi
    obtain ⟨x, hxE, rfl⟩ := List.mem_map.mp hi
    have hpred := List.of_mem_filter hxE
    simp only [Bool.and_eq_true, tenantEq, beq_iff_eq, Option.some.injEq] at hpred
    exact List.mem_of_elem_eq_true hpred.1
  have h2 : ids ⊆ (E.map Category.id) := by
    intro i hi
    obtain ⟨x, hxdb, hxid, hxc⟩ := hall i hi
    have hxE : x ∈ E := by
      rw [hE]
      refine List.mem_filter.mpr ⟨hxdb, ?_⟩
      simp only [Bool.and_eq_true, tenantEq, beq_iff_eq, Option.some.injEq]
      exact ⟨List.elem_eq_true_of_mem (hxid ▸ hi), hxc.symm⟩
    exact hxid ▸ List.mem_map_of_mem Category.id hxE
  have hle1 := (List.subperm_of_subset hndE h1).length_le
  have hle2 := (List.subperm_of_subset hids h2).length_le
  have hEM : (E.map Category.id).length = E.length := List.length_map E Category.id
  omega

/-! ### Claim C1 — cross-tenant mutations -/

/-- Cross-tenant category filter is empty: no row matches both the target
id (owned by `c2`) and the caller's tenant `c1`. -/
theorem cat_filter_cross (db : DB) (c1 c2 cid : Nat) (hne : c2 ≠ c1)
    (hcat : ∀ x ∈ db.categories, x.id = cid → x.commerce_id = c2) :
    db.categories.filter (fun c => c.id == cid && tenantEq (some c1) c.commerce_id) = [] := by
  apply List.filter_eq_nil_iff.mpr
  intro x hx
  simp only [Bool.and_eq_true, beq_iff_eq, tenantEq, Option.some.injEq, not_and]
  intro hid hcon
  exact hne (by rw [← hcat x hx hid, ← hcon])

/-- Cross-tenant product filter is empty. -/
theorem prod_filter_cross (db : DB) (c1 c2 pid : Nat) (hne : c2 ≠ c1)
    (hprod : ∀ p ∈ db.products, p.id = pid → p.commerce_id = c2) :
    db.products.filter (fun p => p.id == pid && tenantEq (some c1) p.commerce_id) = [] := by
  apply List.filter_eq_nil_iff.mpr
  intro x hx
  simp only [Bool.and_eq_true, beq_iff_eq, tenantEq, Option.some.injEq, not_and]
  intro hid hcon
  exact hne (by rw [← hprod x hx hid, ← hcon])

/-- Cross-tenant ownership chain: the option-to-product join finds no row. -/
theorem optionBelongs_cross (db : DB) (c1 c2 oid : Nat) (hne : c2 ≠ c1)
    (hopt : ∀ po ∈ db.product_options, po.id = oid →
      ∀ p ∈ db.products, p.id = po.product_id → p.commerce_id = c2) :
    optionBelongs db (some c1) oid = false := by
  apply List.any_eq_false.mpr
  intro po hpo
  simp only [optionBelongs, Bool.and_eq_true, beq_iff_eq, not_and]
  intro hid hany
  obtain ⟨p, hp, hpred⟩ := List.any_eq_true.mp hany
  simp only [Bool.and_eq_true, beq_iff_eq, tenantEq, Option.some.injEq] at hpred
  obtain ⟨hpid, hcon⟩ := hpred
  exact hne (by rw [← hopt po hpo hid p hp hpid, ← hcon])

/-- Claim C1, counterexample: with category 1 owned by the caller's tenant 1
and category 2 owned by tenant 2, the category reorder batch targeting
both answers Forbidden (403), not NotFound (404), for the OWNER of
tenant 1 — the claim says a cross-tenant mutation never yields 403. -/
theorem c1_counterexample :
    (reorderCategories dbTwoTenants "OWNER" (some 1) [(1, 2), (2, 1)]).status = 403 ∧
    (reorderCategories dbTwoTenants "OWNER" (some 1) [(1, 2), (2, 1)]).status ≠ 404 ∧
    (reorderCategories dbTwoTenants "OWNER" (some 1) [(1, 2), (2, 1)]).db = dbTwoTenants := by
  refine ⟨by decide, by decide, by decide⟩

/-- Claim C1 (amended): a single-resource mutation (category or product
update/delete, option update on either route, tag assignment) invoked by
an OWNER of tenant `c1` against a resource of tenant `c2 ≠ c1` answers
NotFound (404) and leaves the database unchanged; the category reorder
batch is the exception: a batch containing a foreign id answers
Forbidden (403), still before any write. -/
theorem c1_amended (c1 c2 : Nat) (hne : c2 ≠ c1) :
    (∀ (db : DB) (cid : Nat) (name : String) (pos : Option Int),
      (∀ x ∈ db.categories, x.id = cid → x.commerce_id = c2) →
      updateCategory db "OWNER" (some c1) cid name pos = ⟨404, db⟩) ∧
    (∀ (db : DB) (cid : Nat),
      (∀ x ∈ db.categories, x.id = cid → x.commerce_id = c2) →
      deleteCategory db "OWNER" (some c1) cid = ⟨404, db⟩) ∧
    (∀ (db : DB) (pid : Nat) (name d : String) (pr : Int) (catId : Nat),
      name ≠ "" → catId ≠ 0 →
      (∀ p ∈ db.products, p.id = pid → p.commerce_id = c2) →
      updateProduct db (some c1) pid name d (some pr) catId = ⟨404, db⟩) ∧
    (∀ (db : DB) (pid : Nat),
      (∀ p ∈ db.products, p.id = pid → p.commerce_id = c2) →
      deleteProduct db (some c1) pid = ⟨404, db⟩) ∧
    (∀ (db : DB) (oid : Nat) (name : String) (req mult : Bool) (ms : Option Int),
      (∀ po ∈ db.product_options, po.id = oid →
        ∀ p ∈ db.products, p.id = po.product_id → p.commerce_id = c2) →
      updateOptionById db (some c1) oid name req mult ms = ⟨404, db⟩) ∧
    (∀ (db : DB) (oid : Nat) (name : String) (req mult : Bool) (ms : Option Int)
       (items : Option (List ItemReq)),
      (∀ po ∈ db.product_options, po.id = oid →
        ∀ p ∈ db.products, p.id = po.product_id → p.commerce_id = c2) →
      updateOptionFull db (some c1) oid name req mult ms items = ⟨404, db⟩) ∧
    (∀ (db : DB) (pid tid : Nat),
      (∀ p ∈ db.products, p.id = pid → p.commerce_id = c2) →
      assignProductTag db (some c1) pid tid = ⟨404, db⟩) ∧
    (∀ (db : DB) (pairs : List (Nat × Int)) (j : Nat) (q : Int),
      (db.categories.map Category.id).Nodup →
      (∀ p ∈ pairs, p.1 ≠ 0) →
      (j, q) ∈ pairs →
      (∀ x ∈ db.categories, x.id = j → x.commerce_id = c2) →
      reorderCategories db "OWNER" (some c1) pairs = ⟨403, db⟩) := by
  refine ⟨?_, ?_, ?_, ?_, ?_, ?_, ?_, ?_⟩
  · intro db cid name pos hcat
    have hf := cat_filter_cross db c1 c2 cid hne hcat
    simp [updateCategory, hf]
  · intro db cid hcat
    have hf := cat_filter_cross db c1 c2 cid hne hcat
    simp [deleteCategory, hf]
  · intro db pid name d pr catId hn hcid hprod
    have hf := prod_filter_cross db c1 c2 pid hne hprod
    simp [updateProduct, hf, hn, hcid]
  · intro db pid hprod
    have hf := prod_filter_cross db c1 c2 pid hne hprod
    simp [deleteProduct, hf]
  · intro db oid name req mult ms hopt
    have hf := optionBelongs_cross db c1 c2 oid hne hopt
    simp [updateOptionById, hf]
  · intro db oid name req mult ms items hopt
    have hf := optionBelongs_cross db c1 c2 oid hne hopt
    simp [updateOptionFull, hf]
  · intro db pid tid hprod
    have hany : (db.products.any (fun p => p.id == pid && tenantEq (some c1) p.commerce_id)) = false := by
      apply List.any_eq_false.mpr
      intro p hp
      simp only [Bool.and_eq_true, beq_iff_eq, tenantEq, Option.some.injEq, not_and]
      intro hid hcon
      exact hne (by rw [← hprod p hp hid, ← hcon])
    simp [assignProductTag, hany]
  · intro db pairs j q hnd hz hj hjcat
    have hz' : (pairs.any (fun p => p.1 == 0)) = false := by
      apply List.any_eq_false.mpr
      intro p hp
      simpa using hz p hp
    have hjid : j ∈ pairs.map (fun p => p.1) :=
      List.mem_map.mpr ⟨(j, q), hj, rfl⟩
    have hchk := reorder_check_short db c1 (pairs.map (fun p => p.1)) hnd j hjid
      (fun x hx hxid => by rw [hjcat x hx hxid]; exact hne)
    simp only [reorderCategories, hz', Bool.false_eq_true, if_false]
    simp only [String.reduceEq, bne_iff_ne, ne_eq, not_false_eq_true, if_true]
    rw [if_pos hchk]

/-- Claim C1, witness: the amended theorem applied at the two-tenant
fixture — a product update and a reorder batch against tenant 2 issued by
the OWNER of tenant 1. -/
theorem c1_witness :
    ((2 : Nat) ≠ 1) ∧
    (∀ p ∈ dbTwoTenants.products, p.id = 7 → p.commerce_id = 2) ∧
    updateProduct dbTwoTenants (some 1) 7 "X" "" (some 5) 3 = ⟨404, dbTwoTenants⟩ ∧
    reorderCategories dbTwoTenants "OWNER" (some 1) [(1, 2), (2, 1)] = ⟨403, dbTwoTenants⟩ := by
  refine ⟨by decide, by decide, ?_, ?_⟩
  · exact (c1_amended 1 2 (by decide)).2.2.1 dbTwoTenants 7 "X" "" 5 3
      (by decide) (by decide) (by decide)
  · exact (c1_amended 1 2 (by decide)).2.2.2.2.2.2.2 dbTwoTenants [(1, 2), (2, 1)] 2 1
      (by decide) (by decide) (by decide) (by decide)

/-! ### Claim C2 — SUPERUSER bypass coverage -/

/-- Claim C2, counterexample: product 7 belongs to tenant 2; the product
update route has no SUPERUSER branch and filters by the caller's
`commerce_id` alone, so a SUPERUSER token (whose `commerce_id` is NULL)
gets NotFound and mutates nothing — the claimed global override does not
hold for product mutations. -/
theorem c2_counterexample :
    updateProduct dbTwoTenants none 7 "X" "" (some 5) 3 = ⟨404, dbTwoTenants⟩ ∧
    (updateProduct dbTwoTenants none 7 "X" "" (some 5) 3).status ≠ 200 := by
  refine ⟨by decide, by decide⟩

/-- Claim C2 (amended): the SUPERUSER override exists in the category
routes — a SUPERUSER updates any existing category regardless of tenant
and reorders without the ownership check — but the product and
product-option mutation routes filter solely by the caller's
`commerce_id`, with no role branch: with the NULL `commerce_id` of a
tenantless SUPERUSER token they answer NotFound and change nothing. -/
theorem c2_amended :
    (∀ (db : DB) (commerceId : Option Nat) (cid : Nat) (name : String) (pos : Option Int),
      (∃ c ∈ db.categories, c.id = cid) →
      (updateCategory db "SUPERUSER" commerceId cid name pos).status = 200) ∧
    (∀ (db : DB) (commerceId : Option Nat) (pairs : List (Nat × Int)),
      (∀ p ∈ pairs, p.1 ≠ 0) →
      reorderCategories db "SUPERUSER" commerceId pairs =
        ⟨200, { db with categories := pairs.foldl (reorderStep "SUPERUSER" commerceId) db.categories }⟩) ∧
    (∀ (db : DB) (pid : Nat) (name d : String) (pr : Int) (catId : Nat),
      name ≠ "" → catId ≠ 0 →
      updateProduct db none pid name d (some pr) catId = ⟨404, db⟩) ∧
    (∀ (db : DB) (oid : Nat) (name : String) (req mult : Bool) (ms : Option Int),
      updateOptionById db none oid name req mult ms = ⟨404, db⟩) := by
  refine ⟨?_, ?_, ?_, ?_⟩
  · intro db commerceId cid name pos hex
    obtain ⟨c, hc, hcid⟩ := hex
    have hmem : c ∈ db.categories.filter (fun x => x.id == cid) :=
      List.mem_filter.mpr ⟨hc, by simp [hcid]⟩
    have hne : db.categories.filter (fun x => x.id == cid) ≠ [] :=
      List.ne_nil_of_mem hmem
    simp [updateCategory, List.isEmpty_iff, hne]
  · intro db commerceId pairs hz
    have hz' : (pairs.any (fun p => p.1 == 0)) = false := by
      apply List.any_eq_false.mpr
      intro p hp
      simpa using hz p hp
    simp [reorderCategories, hz']
  · intro db pid name d pr catId hn hcid
    have hf : db.products.filter (fun p => p.id == pid && tenantEq none p.commerce_id) = [] := by
      apply List.filter_eq_nil_iff.mpr
      intro p hp
      simp [tenantEq]
    simp [updateProduct, hf, hn, hcid]
  · intro db oid name req mult ms
    have hb : optionBelongs db none oid = false := by
      apply List.any_eq_false.mpr
      intro po hpo
      simp only [Bool.and_eq_true, beq_iff_eq, not_and]
      intro hid hany
      obtain ⟨p, hp, hpred⟩ := List.any_eq_true.mp hany
      simp [tenantEq] at hpred
    simp [updateOptionById, hb]

/-- Claim C2, witness: a SUPERUSER updates tenant 2's category (200) while
the same caller's product update of tenant 2's product 7 answers 404. -/
theorem c2_witness :
    (∃ c ∈ dbTwoTenants.categories, c.id = 2) ∧
    (updateCategory dbTwoTenants "SUPERUSER" none 2 "B2" none).status = 200 ∧
    updateProduct dbTwoTenants none 7 "X" "" (some 5) 3 = ⟨404, dbTwoTenants⟩ := by
  refine ⟨⟨⟨2, 2, "B", 1⟩, by decide, by decide⟩, ?_, ?_⟩
  · exact c2_amended.1 dbTwoTenants none 2 "B2" none ⟨⟨2, 2, "B", 1⟩, by decide, by decide⟩
  · exact c2_amended.2.2.1 dbTwoTenants 7 "X" "" 5 3 (by decide) (by decide)

/-! ### Claim C5 — reorder batch rejection and atomic application -/

/-- Claim C5, counterexample: in a batch that repeats the same owned id
(`[(1,5), (1,6)]`, category 1 owned by the caller) every id belongs to the
caller's tenant, yet the batched count check compares 1 found row with a
batch length of 2 and rejects the whole batch with 403 — the claim's
"otherwise all position updates execute" direction fails. -/
theorem c5_counterexample :
    (∀ p ∈ [((1 : Nat), (5 : Int)), (1, 6)],
      ∃ x ∈ dbOneCat.categories, x.id = p.1 ∧ x.commerce_id = 1) ∧
    reorderCategories dbOneCat "OWNER" (some 1) [(1, 5), (1, 6)] = ⟨403, dbOneCat⟩ := by
  refine ⟨by decide, by decide⟩

/-- Claim C5 (amended): for a batch whose ids are pairwise distinct (and
non-zero, passing input validation) issued by a non-SUPERUSER caller of
tenant `c1`: if some id has no category row of tenant `c1`, the whole
batch is rejected with Forbidden (403) and the database is unchanged;
otherwise the handler answers 200 and all position updates are applied in
one transaction. -/
theorem c5_amended (db : DB) (c1 : Nat) (pairs : List (Nat × Int))
    (hnd : (db.categories.map Category.id).Nodup)
    (hpnd : (pairs.map (fun p => p.1)).Nodup)
    (hz : ∀ p ∈ pairs, p.1 ≠ 0) :
    ((∃ p ∈ pairs, ∀ x ∈ db.categories, x.id = p.1 → x.commerce_id ≠ c1) →
      reorderCategories db "OWNER" (some c1) pairs = ⟨403, db⟩) ∧
    ((∀ p ∈ pairs, ∃ x ∈ db.categories, x.id = p.1 ∧ x.commerce_id = c1) →
      reorderCategories db "OWNER" (some c1) pairs =
        ⟨200, { db with categories := pairs.foldl (reorderStep "OWNER" (some c1)) db.categories }⟩) := by
  have hz' : (pairs.any (fun p => p.1 == 0)) = false := by
    apply List.any_eq_false.mpr
    intro p hp
    simpa using hz p hp
  constructor
  · intro hex
    obtain ⟨p, hp, hnone⟩ := hex
    have hjid : p.1 ∈ pairs.map (fun x => x.1) := List.mem_map.mpr ⟨p, hp, rfl⟩
    have hchk := reorder_check_short db c1 (pairs.map (fun x => x.1)) hnd p.1 hjid hnone
    simp only [reorderCategories, hz', Bool.false_eq_true, if_false]
    simp only [String.reduceEq, bne_iff_ne, ne_eq, not_false_eq_true, if_true]
    rw [if_pos hchk]
  · intro hall
    have hall' : ∀ i ∈ pairs.map (fun x => x.1),
        ∃ x ∈ db.categories, x.id = i ∧ x.commerce_id = c1 := by
      intro i hi
      obtain ⟨p, hp, rfl⟩ := List.mem_map.mp hi
      exact hall p hp
    have hchk := reorder_check_full db c1 (pairs.map (fun x => x.1)) hnd hpnd hall'
    simp only [reorderCategories, hz', Bool.false_eq_true, if_false]
    simp only [String.reduceEq, bne_iff_ne, ne_eq, not_false_eq_true, if_true]
    rw [if_neg (by simpa using hchk)]

/-- Claim C5, witness: the amended theorem at the two-tenant fixture — the
batch `[(1,2),(2,1)]` contains tenant 2's category 2 and is rejected with
403 leaving the table unchanged, while the batch `[(1,2)]` is applied. -/
theorem c5_witness :
    (dbTwoTenants.categories.map Category.id).Nodup ∧
    ([((1 : Nat), (2 : Int)), (2, 1)].map (fun p => p.1)).Nodup ∧
    reorderCategories dbTwoTenants "OWNER" (some 1) [(1, 2), (2, 1)] = ⟨403, dbTwoTenants⟩ ∧
    reorderCategories dbTwoTenants "OWNER" (some 1) [(1, 2)] =
      ⟨200, { dbTwoTenants with categories := [((1 : Nat), (2 : Int))].foldl (reorderStep "OWNER" (some 1)) dbTwoTenants.categories }⟩ := by
  refine ⟨by decide, by decide, ?_, ?_⟩
  · exact (c5_amended dbTwoTenants 1 [(1, 2), (2, 1)] (by decide) (by decide) (by decide)).1
      ⟨(2, 1), by decide, by decide⟩
  · exact (c5_amended dbTwoTenants 1 [(1, 2)] (by decide) (by decide) (by decide)).2 (by decide)

/-! ### Claim C3 — public menu composition -/

/-- Claim C3: for an unknown slug the public menu answers NotFound (404);
for a found commerce it answers 200 with the tenant's categories ordered
by `(position, id)` ascending (ids break position ties), the output being
a permutation of the tenant's category rows, and every category's
`products` field is a JSON array — `some` list, never `none`/null — even
when the category has no products. -/
theorem c3_compose_menu :
    (∀ (db : DB) (slug : String),
      (∀ cm ∈ db.commerces, cm.subdomain ≠ slug) →
      (composeMenu db slug).status = 404 ∧ (composeMenu db slug).categories = []) ∧
    (∀ (db : DB) (slug : String) (commerce : Commerce),
      db.commerces.find? (fun cm => cm.subdomain == slug) = some commerce →
      (composeMenu db slug).status = 200 ∧
      (composeMenu db slug).categories.Pairwise (fun a b =>
        a.position < b.position ∨ (a.position = b.position ∧ a.id ≤ b.id)) ∧
      ((composeMenu db slug).categories.map MenuCategory.id).Perm
        ((db.categories.filter (fun c => c.commerce_id == commerce.id)).map Category.id) ∧
      ∀ mc ∈ (composeMenu db slug).categories, mc.products.isSome) := by
  constructor
  · intro db slug h
    have hfind : db.commerces.find? (fun cm => cm.subdomain == slug) = none := by
      apply List.find?_eq_none.mpr
      intro cm hcm
      simp [h cm hcm]
    simp [composeMenu, hfind]
  · intro db slug commerce hfind
    have htrans : ∀ (a b c : Category), catOrder a b → catOrder b c → catOrder a c := by
      intro a b c hab hbc
      simp only [catOrder, Bool.or_eq_true, Bool.and_eq_true, decide_eq_true_eq,
        beq_iff_eq] at hab hbc ⊢
      omega
    have htotal : ∀ (a b : Category), catOrder a b || catOrder b a := by
      intro a b
      simp only [catOrder, Bool.or_eq_true, Bool.and_eq_true, decide_eq_true_eq,
        beq_iff_eq]
      omega
    refine ⟨?_, ?_, ?_, ?_⟩
    · simp [composeMenu, hfind]
    · simp only [composeMenu, hfind]
      rw [List.pairwise_map]
      have hsorted := List.sorted_mergeSort htrans htotal
        (db.categories.filter (fun c => c.commerce_id == commerce.id))
      refine hsorted.imp ?_
      intro a b hab
      simpa only [catOrder, Bool.or_eq_true, Bool.and_eq_true, decide_eq_true_eq,
        beq_iff_eq] using hab
    · simp only [composeMenu, hfind]
      rw [List.map_map]
      have hperm := List.mergeSort_perm
        (db.categories.filter (fun c => c.commerce_id == commerce.id)) catOrder
      exact hperm.map Category.id
    · simp only [composeMenu, hfind]
      intro mc hmc
      obtain ⟨c, hc, rfl⟩ := List.mem_map.mp hmc
      rfl

/-- Claim C3, witness: at the two-tenant fixture the theorem applies to the
missing slug `nope` and to a found commerce. -/
theorem c3_witness :
    (∀ cm ∈ dbTwoTenants.commerces, cm.subdomain ≠ "nope") ∧
    (composeMenu dbTwoTenants "nope").status = 404 ∧
    dbMenu.commerces.find? (fun cm => cm.subdomain == "acme") = some ⟨1, "Acme", "acme", none⟩ ∧
    ((composeMenu dbMenu "acme").status = 200 ∧
     (composeMenu dbMenu "acme").categories.Pairwise (fun a b =>
       a.position < b.position ∨ (a.position = b.position ∧ a.id ≤ b.id)) ∧
     ((composeMenu dbMenu "acme").categories.map MenuCategory.id).Perm
       ((dbMenu.categories.filter (fun c => c.commerce_id == (1 : Nat))).map Category.id) ∧
     ∀ mc ∈ (composeMenu dbMenu "acme").categories, mc.products.isSome) := by
  refine ⟨by decide, ?_, by decide, ?_⟩
  · exact ((c3_compose_menu.1 dbTwoTenants "nope") (by decide)).1
  · exact c3_compose_menu.2 dbMenu "acme" ⟨1, "Acme", "acme", none⟩ (by decide)

/-! ### Claim C4 — option items reconciliation -/

/-- Applying a request item's fields never changes the row's id. -/
theorem applyItemFields_id (item : ItemReq) (it : OptionItem) :
    (applyItemFields item it).id = it.id := rfl

/-- Applying a request item's fields never changes the row's option. -/
theorem applyItemFields_option_id (item : ItemReq) (it : OptionItem) :
    (applyItemFields item it).option_id = it.option_id := rfl

/-- Unfolding one request entry of `applyUpds`. -/
theorem applyUpds_cons (oid : Nat) (item : ItemReq) (rest : List ItemReq)
    (it : OptionItem) :
    applyUpds oid (item :: rest) it =
      applyUpds oid rest
        (match item.id with
         | some iid =>
             if it.id == iid && it.option_id == oid then applyItemFields item it
             else it
         | none => it) := rfl

/-- The update loop never changes a row's id or option reference. -/
theorem applyUpds_id (oid : Nat) (l : List ItemReq) (it : OptionItem) :
    (applyUpds oid l it).id = it.id ∧ (applyUpds oid l it).option_id = it.option_id := by
  induction l generalizing it with
  | nil => exact ⟨rfl, rfl⟩
  | cons item rest ih =>
    rw [applyUpds_cons]
    cases hid : item.id with
    | some iid =>
      by_cases hg : (it.id == iid && it.option_id == oid) = true
      · simpa [hg] using ih (applyItemFields item it)
      · simpa [hg] using ih it
    | none => exact ih it

/-- A row whose id is hit by no request update passes through unchanged. -/
theorem applyUpds_eq_self (oid : Nat) (l : List ItemReq) (it : OptionItem)
    (h : ∀ i ∈ l.filterMap (fun r => r.id), it.id ≠ i) :
    applyUpds oid l it = it := by
  induction l with
  | nil => rfl
  | cons item rest ih =>
    rw [applyUpds_cons]
    cases hid : item.id with
    | some iid =>
      have hne : it.id ≠ iid := h iid (by simp [hid])
      have hg : (it.id == iid && it.option_id == oid) = false := by
        simp [hne]
      simp only [hg, Bool.false_eq_true, if_false]
      exact ih (fun i hi => h i (by simp [hid, hi]))
    | none => exact ih (fun i hi => h i (by simp [hid, hi]))

/-- A row of a different option passes through the update loop unchanged. -/
theorem applyUpds_wrong_option (oid : Nat) (l : List ItemReq) (it : OptionItem)
    (h : it.option_id ≠ oid) :
    applyUpds oid l it = it := by
  induction l with
  | nil => rfl
  | cons item rest ih =>
    rw [applyUpds_cons]
    cases hid : item.id with
    | some iid =>
      have hg : (it.id == iid && it.option_id == oid) = false := by
        simp [h]
      simp only [hg, Bool.false_eq_true, if_false]
      exact ih
    | none => exact ih

/-- When request item `r` carries the row's id, the row belongs to the
option and the request ids are duplicate-free, the update loop applies
exactly `r`'s fields. -/
theorem applyUpds_of_mem (oid : Nat) (l : List ItemReq) (r : ItemReq)
    (it : OptionItem) (hr : r ∈ l) (hid : r.id = some it.id)
    (hoid : it.option_id = oid)
    (hnd : (l.filterMap (fun x => x.id)).Nodup) :
    applyUpds oid l it = applyItemFields r it := by
  induction l with
  | nil => cases hr
  | cons s rest ih =>
    rw [applyUpds_cons]
    rcases List.mem_cons.mp hr with heq | htail
    · subst heq
      rw [hid]
      have hg : (it.id == it.id && it.option_id == oid) = true := by
        simp [hoid]
      simp only [hg, if_true]
      have hnotin : it.id ∉ rest.filterMap (fun x => x.id) := by
        have : (it.id :: rest.filterMap (fun x => x.id)).Nodup := by
          simpa [hid] using hnd
        exact (List.nodup_cons.mp this).1
      have := applyUpds_eq_self oid rest (applyItemFields r it)
        (fun i hi => by
          rw [applyItemFields_id]
          intro he
          exact hnotin (he ▸ hi))
      exact this
    · cases hs : s.id with
      | some iid =>
        have hmem : it.id ∈ rest.filterMap (fun x => x.id) :=
          List.mem_filterMap.mpr ⟨r, htail, hid⟩
        have hnd' : (iid :: rest.filterMap (fun x => x.id)).Nodup := by
          simpa [hs] using hnd
        have hne : it.id ≠ iid := by
          intro he
          exact (List.nodup_cons.mp hnd').1 (he ▸ hmem)
        have hg : (it.id == iid && it.option_id == oid) = false := by
          simp [hne]
        simp only [hg, Bool.false_eq_true, if_false]
        exact ih htail (List.nodup_cons.mp hnd').2
      | none =>
        have hnd' : (rest.filterMap (fun x => x.id)).Nodup := by
          simpa [hs] using hnd
        exact ih htail hnd'

/-- Every request item without an id yields an inserted row. -/
theorem mkInserts_mem (oid : Nat) (l : List ItemReq) (r : ItemReq)
    (hr : r ∈ l) (hid : r.id = none) :
    ∀ n, ∃ m, newItem oid m r ∈ mkInserts oid l n := by
  induction l with
  | nil => cases hr
  | cons s rest ih =>
    intro n
    rcases List.mem_cons.mp hr with heq | htail
    · subst heq
      refine ⟨n, ?_⟩
      simp [mkInserts, hid]
    · cases hs : s.id with
      | some iid =>
        obtain ⟨m, hm⟩ := ih htail n
        exact ⟨m, by simp [mkInserts, hs, hm]⟩
      | none =>
        obtain ⟨m, hm⟩ := ih htail (n + 1)
        exact ⟨m, by simp [mkInserts, hs, List.mem_cons, Or.inr hm]⟩

/-- All inserted rows draw ids at or above the serial counter. -/
theorem mkInserts_ge (oid : Nat) (l : List ItemReq) :
    ∀ n, ∀ it ∈ mkInserts oid l n, n ≤ it.id := by
  induction l with
  | nil => intro n it hit; simp [mkInserts] at hit
  | cons s rest ih =>
    intro n it hit
    cases hs : s.id with
    | some iid =>
      rw [mkInserts, hs] at hit
      exact ih n it hit
    | none =>
      rw [mkInserts, hs] at hit
      rcases List.mem_cons.mp hit with heq | htail
      · subst heq
        exact Nat.le_refl _
      · exact Nat.le_of_succ_le (ih (n + 1) it htail)

/-- Structure of the items loop: starting from the kept rows `cur` and the
serial counter `n` (with every requested id below `n`), the loop maps the
id-carrying updates over the kept rows and appends the inserted rows. -/
theorem foldl_itemsStep_spec (oid : Nat) :
    ∀ (l : List ItemReq) (cur : List OptionItem) (n : Nat),
    (∀ i ∈ l.filterMap (fun r => r.id), i < n) →
    (l.foldl (itemsStep oid) (cur, n)).1 = cur.map (applyUpds oid l) ++ mkInserts oid l n := by
  intro l
  induction l with
  | nil =>
    intro cur n h
    simp only [List.foldl_nil, mkInserts, List.append_nil]
    exact ((List.map_congr_left fun it _ => rfl).trans (List.map_id cur)).symm
  | cons item rest ih =>
    intro cur n h
    rw [List.foldl_cons]
    cases hid : item.id with
    | some iid =>
      have hstep : itemsStep oid (cur, n) item =
          (cur.map (fun it =>
            if it.id == iid && it.option_id == oid then applyItemFields item it
            else it), n) := by
        simp [itemsStep, hid]
      rw [hstep]
      rw [ih _ n (fun i hi => h i (by simp [hid, hi]))]
      rw [List.map_map]
      have hmapeq : cur.map (applyUpds oid rest ∘ (fun it =>
          if it.id == iid && it.option_id == oid then applyItemFields item it
          else it)) = cur.map (applyUpds oid (item :: rest)) := by
        apply List.map_congr_left
        intro it hit
        rw [applyUpds_cons, hid]
        rfl
      rw [hmapeq]
      have hins : mkInserts oid (item :: rest) n = mkInserts oid rest n := by
        rw [mkInserts, hid]
      rw [hins]
    | none =>
      have hstep : itemsStep oid (cur, n) item = (cur ++ [newItem oid n item], n + 1) := by
        simp [itemsStep, hid]
      rw [hstep]
      rw [ih _ (n + 1) (fun i hi =>
        Nat.lt_succ_of_lt (h i (by simp [hid, hi])))]
      rw [List.map_append]
      have hnew : applyUpds oid rest (newItem oid n item) = newItem oid n item := by
        apply applyUpds_eq_self
        intro i hi
        have hlt : i < n := h i (by simp [hid, hi])
        show (newItem oid n item).id ≠ i
        simp only [newItem]
        omega
      have hmapeq : cur.map (applyUpds oid rest) = cur.map (applyUpds oid (item :: rest)) := by
        apply List.map_congr_left
        intro it hit
        rw [applyUpds_cons, hid]
      have hins : mkInserts oid (item :: rest) n =
          newItem oid n item :: mkInserts oid rest (n + 1) := by
        rw [mkInserts, hid]
      rw [hmapeq, hins]
      simp [hnew]

/-- Claim C4 (amended): for a full option update carrying a NON-empty items
list (the handler's `if (items && items.length > 0)` guard), with the
option owned by the caller: the request succeeds, every stored item of the
option whose id is absent from the request disappears (no row with its id
survives), every request item carrying a stored id updates that row in
place, every request item without an id is inserted as a new row, and
items of other options are untouched. An empty or absent list skips the
reconciliation entirely (see the counterexample). -/
theorem c4_amended (db : DB) (cid : Option Nat) (oid : Nat) (name : String)
    (req mult : Bool) (ms : Option Int) (l : List ItemReq)
    (hl : l ≠ [])
    (hb : optionBelongs db cid oid = true)
    (hnd : (db.option_items.map OptionItem.id).Nodup)
    (hfresh : ∀ it ∈ db.option_items, it.id < db.nextId)
    (hreqlt : ∀ i ∈ l.filterMap (fun r => r.id), i < db.nextId)
    (hreqnd : (l.filterMap (fun r => r.id)).Nodup) :
    (updateOptionFull db cid oid name req mult ms (some l)).status = 200 ∧
    (∀ it ∈ db.option_items, it.option_id = oid →
      it.id ∉ l.filterMap (fun r => r.id) →
      ∀ jt ∈ (updateOptionFull db cid oid name req mult ms (some l)).db.option_items,
        jt.id ≠ it.id) ∧
    (∀ it ∈ db.option_items, it.option_id = oid →
      ∀ r ∈ l, r.id = some it.id →
      applyItemFields r it ∈ (updateOptionFull db cid oid name req mult ms (some l)).db.option_items) ∧
    (∀ r ∈ l, r.id = none →
      ∃ m, newItem oid m r ∈ (updateOptionFull db cid oid name req mult ms (some l)).db.option_items) ∧
    (∀ it ∈ db.option_items, it.option_id ≠ oid →
      it ∈ (updateOptionFull db cid oid name req mult ms (some l)).db.option_items) := by
  have hlen : l.length > 0 := List.length_pos.mpr hl
  have hmain : (updateOptionFull db cid oid name req mult ms (some l)).db.option_items =
      (db.option_items.filter (fun it =>
        !(((db.option_items.filter (fun x => x.option_id == oid)).map (fun x => x.id)).filter
            (fun i => !(l.filterMap (fun r => r.id)).contains i)).contains it.id)).map
        (applyUpds oid l)
      ++ mkInserts oid l db.nextId := by
    simp only [updateOptionFull, hb, Bool.not_true, Bool.false_eq_true, if_false, if_pos hlen]
    rw [foldl_itemsStep_spec oid l _ _ hreqlt]
  have hstatus : (updateOptionFull db cid oid name req mult ms (some l)).status = 200 := by
    simp only [updateOptionFull, hb, Bool.not_true, Bool.false_eq_true, if_false, if_pos hlen]
  refine ⟨hstatus, ?_, ?_, ?_, ?_⟩
  · intro it hit hoid hnot jt hjt
    rw [hmain] at hjt
    rcases List.mem_append.mp hjt with hmapmem | hins
    · obtain ⟨x, hxk, rfl⟩ := List.mem_map.mp hmapmem
      rw [(applyUpds_id oid l x).1]
      have hxfil := List.of_mem_filter hxk
      intro he
      have hitcur : it.id ∈ (db.option_items.filter (fun x => x.option_id == oid)).map (fun x => x.id) :=
        List.mem_map.mpr ⟨it, List.mem_filter.mpr ⟨hit, by simp [hoid]⟩, rfl⟩
      have hnreq : ((l.filterMap (fun r => r.id)).contains it.id) = false := by
        cases hc : (l.filterMap (fun r => r.id)).contains it.id with
        | true => exact absurd (List.mem_of_elem_eq_true hc) hnot
        | false => rfl
      have hitdel : it.id ∈ ((db.option_items.filter (fun x => x.option_id == oid)).map (fun x => x.id)).filter
          (fun i => !(l.filterMap (fun r => r.id)).contains i) :=
        List.mem_filter.mpr ⟨hitcur, by rw [hnreq]; rfl⟩
      rw [he] at hxfil
      have hcont : (((db.option_items.filter (fun x => x.option_id == oid)).map (fun x => x.id)).filter
          (fun i => !(l.filterMap (fun r => r.id)).contains i)).contains it.id = true :=
        List.elem_eq_true_of_mem hitdel
      rw [hcont] at hxfil
      exact absurd hxfil (by decide)
    · have h1 := mkInserts_ge oid l db.nextId jt hins
      have h2 := hfresh it hit
      omega
  · intro it hit hoid r hr hrid
    have hitreq : it.id ∈ l.filterMap (fun x => x.id) :=
      List.mem_filterMap.mpr ⟨r, hr, hrid⟩
    have hnotdel : it.id ∉ ((db.option_items.filter (fun x => x.option_id == oid)).map (fun x => x.id)).filter
        (fun i => !(l.filterMap (fun x => x.id)).contains i) := by
      intro hmem
      have hp := List.of_mem_filter hmem
      simp [List.elem_eq_true_of_mem hitreq] at hp
      exact hp r hr hrid
    have hkeptmem : it ∈ db.option_items.filter (fun x =>
        !(((db.option_items.filter (fun y => y.option_id == oid)).map (fun y => y.id)).filter
            (fun i => !(l.filterMap (fun r => r.id)).contains i)).contains x.id) := by
      refine List.mem_filter.mpr ⟨hit, ?_⟩
      cases hc : (((db.option_items.filter (fun y => y.option_id == oid)).map (fun y => y.id)).filter
          (fun i => !(l.filterMap (fun r => r.id)).contains i)).contains it.id with
      | true => exact absurd (List.mem_of_elem_eq_true hc) hnotdel
      | false => rfl
    rw [hmain]
    apply List.mem_append_left
    exact List.mem_map.mpr ⟨it, hkeptmem, applyUpds_of_mem oid l r it hr hrid hoid hreqnd⟩
  · intro r hr hrid
    obtain ⟨m, hm⟩ := mkInserts_mem oid l r hr hrid db.nextId
    rw [hmain]
    exact ⟨m, List.mem_append_right _ hm⟩
  · intro it hit hne'
    have hp : db.option_items.Pairwise (fun a b => a.id ≠ b.id) := by
      rw [List.Nodup, List.pairwise_map] at hnd
      exact hnd
    have hnotdel : it.id ∉ ((db.option_items.filter (fun x => x.option_id == oid)).map (fun x => x.id)).filter
        (fun i => !(l.filterMap (fun x => x.id)).contains i) := by
      intro hmem
      have hcur := List.mem_of_mem_filter hmem
      obtain ⟨x, hxfil, hxid⟩ := List.mem_map.mp hcur
      have hxdb := List.mem_of_mem_filter hxfil
      have hxoid : x.option_id = oid := by
        simpa using List.of_mem_filter hxfil
      have hxneit : x ≠ it := by
        intro he
        exact hne' (he ▸ hxoid)
      exact hp.forall (fun a b hab => hab.symm) hxdb hit hxneit hxid
    have hkeptmem : it ∈ db.option_items.filter (fun x =>
        !(((db.option_items.filter (fun y => y.option_id == oid)).map (fun y => y.id)).filter
            (fun i => !(l.filterMap (fun r => r.id)).contains i)).contains x.id) := by
      refine List.mem_filter.mpr ⟨hit, ?_⟩
      cases hc : (((db.option_items.filter (fun y => y.option_id == oid)).map (fun y => y.id)).filter
          (fun i => !(l.filterMap (fun r => r.id)).contains i)).contains it.id with
      | true => exact absurd (List.mem_of_elem_eq_true hc) hnotdel
      | false => rfl
    rw [hmain]
    apply List.mem_append_left
    exact List.mem_map.mpr ⟨it, hkeptmem, applyUpds_wrong_option oid l it hne'⟩

/-- Claim C4, counterexample: an update of option 10 whose request carries
an EMPTY items list succeeds (200) but leaves both stored items in place —
the handler's `if (items && items.length > 0)` guard skips the
reconciliation, so an empty list does not delete the stored items as the
claim states. -/
theorem c4_counterexample :
    (updateOptionFull dbOption (some 1) 10 "Opt" false false none (some [])).status = 200 ∧
    (updateOptionFull dbOption (some 1) 10 "Opt" false false none (some [])).db.option_items =
      dbOption.option_items ∧
    dbOption.option_items ≠ [] := by
  refine ⟨by decide, by decide, by decide⟩

/-- Claim C4, witness: the amended theorem at `dbOption` with `c4req`:
item 20 is updated in place, item 21 (absent from the request) is deleted,
and the id-less request item is inserted. -/
theorem c4_witness :
    c4req ≠ [] ∧
    optionBelongs dbOption (some 1) 10 = true ∧
    (dbOption.option_items.map OptionItem.id).Nodup ∧
    (∀ it ∈ dbOption.option_items, it.id < dbOption.nextId) ∧
    (∀ i ∈ c4req.filterMap (fun r => r.id), i < dbOption.nextId) ∧
    (c4req.filterMap (fun r => r.id)).Nodup ∧
    ((updateOptionFull dbOption (some 1) 10 "Opt" true false none (some c4req)).status = 200 ∧
     (∀ it ∈ dbOption.option_items, it.option_id = 10 →
       it.id ∉ c4req.filterMap (fun r => r.id) →
       ∀ jt ∈ (updateOptionFull dbOption (some 1) 10 "Opt" true false none (some c4req)).db.option_items,
         jt.id ≠ it.id) ∧
     (∀ it ∈ dbOption.option_items, it.option_id = 10 →
       ∀ r ∈ c4req, r.id = some it.id →
       applyItemFields r it ∈ (updateOptionFull dbOption (some 1) 10 "Opt" true false none (some c4req)).db.option_items) ∧
     (∀ r ∈ c4req, r.id = none →
       ∃ m, newItem 10 m r ∈ (updateOptionFull dbOption (some 1) 10 "Opt" true false none (some c4req)).db.option_items) ∧
     (∀ it ∈ dbOption.option_items, it.option_id ≠ 10 →
       it ∈ (updateOptionFull dbOption (some 1) 10 "Opt" true false none (some c4req)).db.option_items)) := by
  refine ⟨by decide, by decide, by decide, by decide, by decide, by decide, ?_⟩
  exact c4_amended dbOption (some 1) 10 "Opt" true false none c4req
    (by decide) (by decide) (by decide) (by decide) (by decide) (by decide)
